import Mathlib

/-!
Verification of the asset-generation pipeline of the multi-modal campaign
asset generator (cache.py, llm_client.py, scorer.py, image_client.py,
langchain_agent.py).

The development shallowly embeds the deterministic offline execution path of
the program: machine-level hashing (hashlib.sha256) is embedded as an
executable SHA-256 over byte lists, the prompt cache (cache.py) as an
association store keyed by the hashed file name, the copy/prompt generators
(llm_client.py) as their deterministic fallback computations, the scorer
(scorer.py) by its clamping and error-fallback structure, and the
orchestrator (langchain_agent.py) as a state-passing pipeline over briefs.
-/

/-! ## SHA-256, embedded from the use of hashlib.sha256 in cache.py and
scorer.py.  Words are Nat values truncated modulo 2^32. -/

/-- Truncate to a 32-bit word, written as Nat modulo 2^32. -/
def w32 (n : Nat) : Nat := n % 4294967296

/-- Truncate to a byte, written as Nat modulo 2^8. -/
def w8 (n : Nat) : Nat := n % 256

/-- Rotate a 32-bit word right by k bits. -/
def rotr (x k : Nat) : Nat := w32 ((x >>> k) ||| (x <<< (32 - k)))

/-- SHA-256 choice function; complement of x is taken inside 32 bits. -/
def sha2Ch (x y z : Nat) : Nat := (x &&& y) ^^^ ((4294967295 - x) &&& z)

/-- SHA-256 majority function. -/
def sha2Maj (x y z : Nat) : Nat := (x &&& y) ^^^ (x &&& z) ^^^ (y &&& z)

/-- SHA-256 big sigma 0. -/
def bigSigma0 (x : Nat) : Nat := rotr x 2 ^^^ rotr x 13 ^^^ rotr x 22

/-- SHA-256 big sigma 1. -/
def bigSigma1 (x : Nat) : Nat := rotr x 6 ^^^ rotr x 11 ^^^ rotr x 25

/-- SHA-256 small sigma 0. -/
def smallSigma0 (x : Nat) : Nat := rotr x 7 ^^^ rotr x 18 ^^^ (x >>> 3)

/-- SHA-256 small sigma 1. -/
def smallSigma1 (x : Nat) : Nat := rotr x 17 ^^^ rotr x 19 ^^^ (x >>> 10)

/-- The 64 SHA-256 round constants. -/
def sha256K : List Nat :=
  [1116352408, 1899447441, 3049323471, 3921009573,
   961987163, 1508970993, 2453635748, 2870763221,
   3624381080, 310598401, 607225278, 1426881987,
   1925078388, 2162078206, 2614888103, 3248222580,
   3835390401, 4022224774, 264347078, 604807628,
   770255983, 1249150122, 1555081692, 1996064986,
   2554220882, 2821834349, 2952996808, 3210313671,
   3336571891, 3584528711, 113926993, 338241895,
   666307205, 773529912, 1294757372, 1396182291,
   1695183700, 1986661051, 2177026350, 2456956037,
   2730485921, 2820302411, 3259730800, 3345764771,
   3516065817, 3600352804, 4094571909, 275423344,
   430227734, 506948616, 659060556, 883997877,
   958139571, 1322822218, 1537002063, 1747873779,
   1955562222, 2024104815, 2227730452, 2361852424,
   2428436474, 2756734187, 3204031479, 3329325298]

/-- The eight-word SHA-256 working state. -/
structure H8 where
  a : Nat
  b : Nat
  c : Nat
  d : Nat
  e : Nat
  f : Nat
  g : Nat
  h : Nat
deriving DecidableEq, Repr

/-- The SHA-256 initial hash value. -/
def sha256IV : H8 :=
  ⟨1779033703, 3144134277, 1013904242, 2773480762, 1359893119, 2600822924, 528734635, 1541459225⟩

/-- Group a byte list into big-endian 32-bit words, four bytes per word. -/
def toWords : List Nat → List Nat
  | b0 :: b1 :: b2 :: b3 :: rest => (((b0 * 256 + b1) * 256 + b2) * 256 + b3) :: toWords rest
  | _ => []

/-- Extend the 16-word message block to the 64-word schedule, one word per
step of the counter. -/
def extendSchedule : Nat → List Nat → List Nat
  | 0, ws => ws
  | n + 1, ws =>
    let i := ws.length
    let nw := w32 (ws.getD (i - 16) 0 + smallSigma0 (ws.getD (i - 15) 0) +
                   ws.getD (i - 7) 0 + smallSigma1 (ws.getD (i - 2) 0))
    extendSchedule n (ws ++ [nw])

/-- One SHA-256 compression round for a pair of round constant and schedule
word. -/
def compressStep (st : H8) (kw : Nat × Nat) : H8 :=
  let t1 := w32 (st.h + bigSigma1 st.e + sha2Ch st.e st.f st.g + kw.1 + kw.2)
  let t2 := w32 (bigSigma0 st.a + sha2Maj st.a st.b st.c)
  ⟨w32 (t1 + t2), st.a, st.b, st.c, w32 (st.d + t1), st.e, st.f, st.g⟩

/-- Process one padded 64-byte block, adding the compressed state back into
the incoming state. -/
def processBlock (st : H8) (block : List Nat) : H8 :=
  let ws := extendSchedule 48 (toWords block)
  let r := (sha256K.zip ws).foldl compressStep st
  ⟨w32 (st.a + r.a), w32 (st.b + r.b), w32 (st.c + r.c), w32 (st.d + r.d),
   w32 (st.e + r.e), w32 (st.f + r.f), w32 (st.g + r.g), w32 (st.h + r.h)⟩

/-- Big-endian byte rendering of a 64-bit length field. -/
def be64 (n : Nat) : List Nat :=
  [w8 (n >>> 56), w8 (n >>> 48), w8 (n >>> 40), w8 (n >>> 32),
   w8 (n >>> 24), w8 (n >>> 16), w8 (n >>> 8), w8 n]

/-- Big-endian byte rendering of a 32-bit word. -/
def be32 (n : Nat) : List Nat := [w8 (n >>> 24), w8 (n >>> 16), w8 (n >>> 8), w8 n]

/-- SHA-256 padding: a 0x80 byte, zero fill, then the message bit length in
eight big-endian bytes, to a multiple of 64 bytes. -/
def padMessage (msg : List Nat) : List Nat :=
  let zeros := (64 - (msg.length + 9) % 64) % 64
  msg ++ [0x80] ++ List.replicate zeros 0 ++ be64 (msg.length * 8)

/-- Split a byte list into 64-byte blocks.  The first argument is fuel; the
callers pass the list length, which is enough because every step consumes at
least one element. -/
def toBlocksF : Nat → List Nat → List (List Nat)
  | 0, _ => []
  | _, [] => []
  | fuel + 1, l => l.take 64 :: toBlocksF fuel (l.drop 64)

/-- SHA-256 digest of a byte list, as the list of its 32 digest bytes.
Embeds hashlib.sha256(...).digest(). -/
def sha256Bytes (msg : List Nat) : List Nat :=
  let padded := padMessage msg
  let st := (toBlocksF padded.length padded).foldl processBlock sha256IV
  be32 st.a ++ be32 st.b ++ be32 st.c ++ be32 st.d ++ be32 st.e ++ be32 st.f ++ be32 st.g ++ be32 st.h

/-- Lowercase hexadecimal digit for a value below 16, as produced by
hexdigest(). -/
def hexDigit (n : Nat) : Char :=
  if n < 10 then Char.ofNat (48 + n) else Char.ofNat (87 + n)

/-- Two lowercase hexadecimal digits of one byte. -/
def byteToHex (b : Nat) : List Char := [hexDigit (b / 16), hexDigit (b % 16)]

/-- Render a byte list as a lowercase hexadecimal string. -/
def bytesToHex (bs : List Nat) : String := ⟨(bs.map byteToHex).flatten⟩

/-- UTF-8 encoding of a single code point, as in str.encode("utf-8"). -/
def utf8EncodeChar (c : Nat) : List Nat :=
  if c < 128 then [c]
  else if c < 2048 then [192 ||| (c >>> 6), 128 ||| (c &&& 63)]
  else if c < 65536 then [224 ||| (c >>> 12), 128 ||| ((c >>> 6) &&& 63), 128 ||| (c &&& 63)]
  else [240 ||| (c >>> 18), 128 ||| ((c >>> 12) &&& 63), 128 ||| ((c >>> 6) &&& 63), 128 ||| (c &&& 63)]

/-- UTF-8 encoding of a string as a byte list. -/
def utf8Encode (s : String) : List Nat := (s.data.map (fun c => utf8EncodeChar c.toNat)).flatten

/-- Embeds hashlib.sha256(s.encode("utf-8")).hexdigest(). -/
def sha256HexUtf8 (s : String) : String := bytesToHex (sha256Bytes (utf8Encode s))

/-! ## ContentCache (cache.py) -/

/-- CACHE_DIR at its default value; the directory is configuration read from
the process environment once at module load and is fixed thereafter. -/
def CACHE_DIR : String := "./cache"

/-- Embeds PromptCache._key (cache.py): the file path is the SHA-256 hex
digest of the UTF-8 encoded prompt text joined under the cache directory
with a ".json" extension. -/
def PromptCache.key (prompt : String) : String :=
  CACHE_DIR ++ "/" ++ sha256HexUtf8 prompt ++ ".json"

/-- The cache persistence substrate: the list of (file path, JSON value)
writes performed, most recent first.  A read of a path sees the most recent
write to that path, as the filesystem does. -/
abbrev PromptCacheStore (V : Type) := List (String × V)

/-- Embeds PromptCache.get (cache.py): read the file named by the key of the
prompt; a missing file gives none (the Python code returns None), so a get
of an unset key is total and never raises. -/
def PromptCache.get {V : Type} (st : PromptCacheStore V) (prompt : String) : Option V :=
  (st.find? (fun e => e.1 == PromptCache.key prompt)).map (fun e => e.2)

/-- Embeds PromptCache.set (cache.py): write the value at the file named by
the key of the prompt; a later write to the same path shadows an earlier
one. -/
def PromptCache.set {V : Type} (st : PromptCacheStore V) (prompt : String) (v : V) :
    PromptCacheStore V :=
  (PromptCache.key prompt, v) :: st

/-! ## CopyGenerator and PromptSynthesizer (llm_client.py)

The embedding models the deterministic offline path, taken whenever
OPENAI_API_KEY is absent or the backend call fails; the claims under
consideration concern exactly this path.  The extra mapping of the brief is
not consulted by any modelled code and is omitted. -/

/-- The campaign brief, as validated by the HTTP layer (main.py Brief):
required string fields and non-negative counts. -/
structure Brief where
  product : String
  audience : String
  tone : String
  goal : String
  platform : List String
  num_headlines : Nat
  num_long : Nat
deriving DecidableEq, Repr

/-- Embeds LLMClient.generate_copy_variations (llm_client.py) on its
deterministic fallback path: templated headlines and long copies indexed
from 1.  The count parameters carry the Python defaults 2 and 1; a call
site that omits them receives those defaults, exactly as in Python. -/
def LLMClient.generate_copy_variations (brief : Brief)
    (num_headlines : Nat := 2) (num_long : Nat := 1) : List String × List String :=
  ((List.range num_headlines).map
      (fun i => brief.product ++ " - Unleash Energy #" ++ toString (i + 1)),
   (List.range num_long).map
      (fun i => brief.product ++ " long copy version " ++ toString (i + 1)))

/-- The image-prompt template of LLMClient.generate_image_prompts: an
f-string over the product and audience fields of the brief only. -/
def promptTemplate (product audience : String) : String :=
  "Ad image for " ++ product ++ " targeting " ++ audience ++
  " — style: vibrant, dynamic, in-frame product shot, bold colors, youthful energy. Include branding and clear product focus."

/-- Embeds LLMClient.generate_image_prompts (llm_client.py): one prompt per
copy, each built from the template; the loop variable for the copy is never
used in the prompt body. -/
def LLMClient.generate_image_prompts (brief : Brief) (copies : List String) : List String :=
  copies.map (fun _ => promptTemplate brief.product brief.audience)

/-! ## CoherenceScorer (scorer.py) -/

/-- The clamping applied by CoherenceScorer.score to the raw similarity:
max(0.0, min(1.0, (s + 1.0) / 2.0)).  Float arithmetic is embedded as exact
rational arithmetic. -/
def clamp01 (s : ℚ) : ℚ := max 0 (min 1 ((s + 1) / 2))

/-- Embeds the control flow of CoherenceScorer.score (scorer.py): the try
block computes a raw similarity value from the text and image embeddings
(whose numeric outcome, dependent on backends and file contents, is the ok
payload here, ranging over all rationals); success returns the clamped
value and any exception inside the block returns the fixed neutral score
0.4 = 2/5. -/
def CoherenceScorer.score (r : Except Unit ℚ) : ℚ :=
  match r with
  | Except.ok s => clamp01 s
  | Except.error _ => 2 / 5

/-- Embeds the except branch of CoherenceScorer._text_embedding
(scorer.py): the SHA-256 digest bytes of the UTF-8 encoded text read as
numbers, zero-padded to length 1536 when shorter. -/
def CoherenceScorer.textEmbeddingFallback (text : String) : List ℚ :=
  let arr := List.map (fun b : Nat => (b : ℚ)) (sha256Bytes (utf8Encode text))
  if arr.length < 1536 then arr ++ List.replicate (1536 - arr.length) 0 else arr

/-! ## ImageRenderer (image_client.py) and Orchestrator (langchain_agent.py)

The orchestrator is embedded on its fallback branch (LangChain
unavailable), which is the deterministic offline path of
OrchestratorAgent.run.  The scorer value and the uuid supply for fresh
placeholder file names are the two environment-dependent ingredients; they
enter as explicit parameters, so every theorem quantifying over them covers
all their possible behaviours. -/

/-- A rendered image artifact: the dict {path, url, prompt} returned by
ImageClient.generate_image.  The url of the placeholder is the file url of
the written path (absolute-path resolution is abstracted). -/
structure RenderedImage where
  path : String
  url : String
  prompt : String
deriving DecidableEq, Repr

/-- The deterministic-by-parameters environment of one run: the scorer as a
function of copy text and image path, and the stream of fresh hex names
that uuid4 produces for placeholder files. -/
structure PipelineEnv where
  score : String → String → ℚ
  uuid : Nat → String

/-- Embeds the placeholder branch of ImageClient.generate_image
(image_client.py): write a fresh file under the output directory and return
its path, url and prompt. -/
def ImageClient.generate_image (env : PipelineEnv) (n : Nat) (prompt : String) : RenderedImage :=
  let path := "./outputs/" ++ env.uuid n ++ ".png"
  { path := path, url := "file://" ++ path, prompt := prompt }

/-- One scored copy-image pair: the dict appended by OrchestratorAgent.run
step 4. -/
structure ScoredAsset where
  copy : String
  image_url : String
  local_path : String
  score : ℚ
deriving DecidableEq, Repr

/-- Embeds the ranking line of OrchestratorAgent.run: sort by score
descending and take the first six.  Python's sorted is a stable sort and
with reverse=True keeps the original order of entries with equal keys, so
it is embedded as the stable mergeSort under the relation that puts a
before b when the score of b is at most the score of a. -/
def OrchestratorAgent.rankAssets (results : List ScoredAsset) : List ScoredAsset :=
  (results.mergeSort (fun a b => decide (b.score ≤ a.score))).take 6

/-- Embeds the image phase of OrchestratorAgent.run in placeholder mode:
the gen_prompt coroutine for each prompt checks the cache and either reuses
the cached image or renders and stores a fresh one.  generate_image
contains no suspension point on any of its paths, so asyncio runs each
gathered task to completion in submission order; the phase is therefore a
left-to-right traversal threading the cache and the fresh-name counter. -/
def OrchestratorAgent.genImages (env : PipelineEnv) :
    List String → PromptCacheStore RenderedImage → Nat →
    List RenderedImage × PromptCacheStore RenderedImage × Nat
  | [], c, n => ([], c, n)
  | p :: ps, c, n =>
    match PromptCache.get c p with
    | some img =>
      let r := OrchestratorAgent.genImages env ps c n
      (img :: r.1, r.2.1, r.2.2)
    | none =>
      let img := ImageClient.generate_image env n p
      let r := OrchestratorAgent.genImages env ps (PromptCache.set c p img) (n + 1)
      (img :: r.1, r.2.1, r.2.2)

/-- The intermediate and final data of one OrchestratorAgent.run execution:
the copy set, the synthesized prompts, the rendered images, all scored
pairs, the ranked top assets, and the outgoing cache and name counter. -/
structure RunTrace where
  copies : List String
  prompts : List String
  images : List RenderedImage
  results : List ScoredAsset
  top : List ScoredAsset
  cacheOut : PromptCacheStore RenderedImage
  counterOut : Nat
deriving DecidableEq

/-- Embeds OrchestratorAgent.run (langchain_agent.py) on its fallback
branch: generate copies (note the call passes only the brief, so the count
parameters take their defaults), synthesize prompts, render images through
the cache, score every copy against every image, and rank.  The cached
value is used whenever present: every stored value is a non-empty dict,
hence truthy in the Python condition. -/
def OrchestratorAgent.run (env : PipelineEnv) (brief : Brief)
    (cache : PromptCacheStore RenderedImage) (n : Nat) : RunTrace :=
  let hl := LLMClient.generate_copy_variations brief
  let copies := hl.1 ++ hl.2
  let prompts := LLMClient.generate_image_prompts brief copies
  let r := OrchestratorAgent.genImages env prompts cache n
  let images := r.1
  let results := copies.flatMap (fun copy => images.map (fun img =>
    { copy := copy, image_url := img.url, local_path := img.path,
      score := env.score copy img.path : ScoredAsset }))
  { copies := copies, prompts := prompts, images := images, results := results,
    top := OrchestratorAgent.rankAssets results, cacheOut := r.2.1, counterOut := r.2.2 }

/-! ## Concurrent render batch (langchain_agent.py gen_prompt under
asyncio.gather)

ImageClient.generate_image is an async def with no await on any of its
paths: the new-client call, the legacy call and the placeholder write are
all synchronous blocking calls.  Awaiting such a coroutine runs it inline
without yielding to the event loop, so under asyncio.gather every
gen_prompt task runs its check-render-store body to completion before the
next task starts, whatever the provider configuration.  The batch is
therefore embedded as a left fold of whole tasks over the shared cache
state in submission order. -/

/-- Shared state of one render batch: the cache plus counters of backend
render calls and cache writes. -/
structure BatchState where
  cache : PromptCacheStore RenderedImage
  counter : Nat
  renders : Nat
  writes : Nat
deriving DecidableEq

/-- The completion half of a gen_prompt task that missed the cache: the
backend render call returns, the result is written to the cache, and the
render and write counters advance. -/
def renderCompletion (env : PipelineEnv) (s : BatchState) (p : String) : BatchState :=
  { cache := PromptCache.set s.cache p (ImageClient.generate_image env s.counter p),
    counter := s.counter + 1, renders := s.renders + 1, writes := s.writes + 1 }

/-- One gen_prompt task, which runs to completion without suspending: on a
cache hit nothing happens, on a miss the backend is called once and the
result written. -/
def renderTaskAtomic (env : PipelineEnv) (p : String) (st : BatchState) : BatchState :=
  match PromptCache.get st.cache p with
  | some _ => st
  | none => renderCompletion env st p

/-- A batch of gen_prompt tasks as asyncio.gather executes them here:
whole tasks, one after another in submission order, over the shared
state. -/
def runBatchAtomic (env : PipelineEnv) (ps : List String) (st : BatchState) : BatchState :=
  ps.foldl (fun s p => renderTaskAtomic env p s) st

/-! ## Concrete inputs used by evaluations and witnesses -/

/-- A concrete environment: a constant scorer and numeric fresh names. -/
def env0 : PipelineEnv := { score := fun _ _ => 0, uuid := fun n => toString n }

/-- The brief of end-to-end scenario 3: num_headlines = 3, num_long = 2. -/
def brief32 : Brief :=
  { product := "Aqua", audience := "teens", tone := "fun", goal := "awareness",
    platform := ["web"], num_headlines := 3, num_long := 2 }

/-- Number of distinct strings in a list. -/
def countDistinct (l : List String) : Nat := l.dedup.length

/-- A second concrete brief sharing only product and audience with
brief32, used to exhibit that prompt synthesis ignores the other brief
fields and the copy texts. -/
def briefAlt : Brief :=
  { product := "Aqua", audience := "teens", tone := "serious", goal := "sales",
    platform := [], num_headlines := 0, num_long := 7 }

/-- The lexicographic comparison on position-tagged assets that the spec's
ranking clause describes: strictly greater score first, and at equal scores
the original enumeration position decides.  On tags with distinct positions
this relation is antisymmetric, total and transitive. -/
def leIdxDesc (x y : Nat × ScoredAsset) : Bool :=
  decide (y.2.score < x.2.score ∨ (x.2.score = y.2.score ∧ x.1 ≤ y.1))

/-- Follows the spec's words, independently of the code's sort call: the
list sorted by score descending with ties broken by original
pair-enumeration order, computed by sorting the position-tagged list under
leIdxDesc and dropping the tags. -/
def specStableDescSort (rs : List ScoredAsset) : List ScoredAsset :=
  (rs.enum.mergeSort leIdxDesc).map Prod.snd

/-- A concrete rendered image used to pre-warm the cache in the C9
witness. -/
def imgW : RenderedImage :=
  { path := "./outputs/w.png", url := "file://./outputs/w.png",
    prompt := promptTemplate "Aqua" "teens" }

/-- A warm cache for brief32: its single distinct prompt is already
cached. -/
def cacheW : PromptCacheStore RenderedImage :=
  PromptCache.set [] (promptTemplate "Aqua" "teens") imgW

/-- The score-only comparison on position-tagged assets: exactly the
comparison the code's sort line uses, lifted along the tag projection. -/
def leSnd (x y : Nat × ScoredAsset) : Bool := decide (y.2.score ≤ x.2.score)

/-! ## Theorems -/

set_option maxRecDepth 100000 in
/-- The SHA-256 embedding reproduces the published digest of the empty
message, grounding it against the algorithm hashlib implements. -/
theorem sha256HexUtf8_empty_vector :
    sha256HexUtf8 "" = "e3b0c44298fc1c149afbf4c8996fb92427ae41e4649b934ca495991b7852b855" := by
  decide

set_option maxRecDepth 100000 in
/-- The SHA-256 embedding reproduces the published digest of the message
"abc", grounding it against the algorithm hashlib implements. -/
theorem sha256HexUtf8_abc_vector :
    sha256HexUtf8 "abc" = "ba7816bf8f01cfea414140de5dae2223b00361a396177a9cb410ff61f20015ad" := by
  decide

/-- The digest always consists of exactly 32 bytes. -/
theorem sha256Bytes_length (msg : List Nat) : (sha256Bytes msg).length = 32 := by
  simp [sha256Bytes, be32]

/-- Hexadecimal rendering produces two characters per byte. -/
theorem bytesToHex_length (bs : List Nat) : (bytesToHex bs).length = 2 * bs.length := by
  show ((bs.map byteToHex).flatten).length = 2 * bs.length
  induction bs with
  | nil => simp
  | cons b t ih => simp [byteToHex, ih]; ring

/-! ## Cache lemmas -/

/-- Reading back a just-written prompt finds exactly the written value. -/
theorem PromptCache.get_set_same {V : Type} (st : PromptCacheStore V) (k : String) (v : V) :
    PromptCache.get (PromptCache.set st k v) k = some v := by
  simp [PromptCache.get, PromptCache.set, List.find?_cons_of_pos]

/-- Reading a prompt none of whose key file was ever written gives none. -/
theorem PromptCache.get_eq_none_of_unset {V : Type} (st : PromptCacheStore V) (k : String)
    (h : ∀ e ∈ st, e.1 ≠ PromptCache.key k) : PromptCache.get st k = none := by
  induction st with
  | nil => rfl
  | cons e t ih =>
    have hne : (e.1 == PromptCache.key k) = false := by
      simp only [beq_eq_false_iff_ne, ne_eq]
      exact h e (List.mem_cons_self e t)
    simp only [PromptCache.get] at ih ⊢
    simp only [List.find?_cons, hne]
    exact ih (fun e' he' => h e' (List.mem_cons_of_mem e he'))

/-- C4: for every key k and value v, set(k, v) followed by get(k) returns
exactly v; and a get on a key whose derived file was never written returns
none (the code returns None for a missing file rather than raising, and the
embedded get is total).  The unset hypothesis says no performed write used
the key file of k, which is how the store looks when set was never called
on k and no digest collision occurred. -/
theorem C4_cache_get_after_set {V : Type} (st : PromptCacheStore V) (k : String) (v : V)
    (st' : PromptCacheStore V) (k' : String)
    (hunset : ∀ e ∈ st', e.1 ≠ PromptCache.key k') :
    PromptCache.get (PromptCache.set st k v) k = some v ∧ PromptCache.get st' k' = none :=
  ⟨PromptCache.get_set_same st k v, PromptCache.get_eq_none_of_unset st' k' hunset⟩

set_option maxRecDepth 100000 in
/-- Witness for C4 at a concrete store, key and value. -/
theorem C4_witness :
    PromptCache.get (PromptCache.set ([] : PromptCacheStore Nat) "a" 0) "a" = some 0 ∧
    PromptCache.get [("f", (7 : Nat))] "b" = none :=
  C4_cache_get_after_set [] "a" 0 [("f", 7)] "b" (by decide)

/-- C5: the cache key is a deterministic function of the prompt text alone
(byte-for-byte identical text gives the identical key, independently of any
other state), and it is the SHA-256 hex digest of the UTF-8 encoded prompt,
a 64-character identifier, placed under the cache directory with a .json
extension. -/
theorem C5_key_deterministic_sha256 (p q : String) (hpq : p = q) :
    PromptCache.key p = PromptCache.key q ∧
    PromptCache.key p = CACHE_DIR ++ "/" ++ sha256HexUtf8 p ++ ".json" ∧
    (sha256HexUtf8 p).length = 64 := by
  subst hpq
  refine ⟨rfl, rfl, ?_⟩
  show (bytesToHex (sha256Bytes (utf8Encode p))).length = 64
  rw [bytesToHex_length, sha256Bytes_length]

/-- Witness for C5 at a concrete prompt. -/
theorem C5_witness :
    PromptCache.key "ad" = PromptCache.key "ad" ∧
    PromptCache.key "ad" = CACHE_DIR ++ "/" ++ sha256HexUtf8 "ad" ++ ".json" ∧
    (sha256HexUtf8 "ad").length = 64 :=
  C5_key_deterministic_sha256 "ad" "ad" rfl

/-- C6: for every outcome of the internal similarity computation the score
lies in [0, 1], and every internal failure yields exactly the neutral score
0.4 = 2/5, so scoring never propagates an error. -/
theorem C6_score_bounds_and_neutral (r : Except Unit ℚ) :
    (0 ≤ CoherenceScorer.score r ∧ CoherenceScorer.score r ≤ 1) ∧
    CoherenceScorer.score (Except.error ()) = 2 / 5 := by
  refine ⟨?_, rfl⟩
  cases r with
  | error e =>
    constructor <;> norm_num [CoherenceScorer.score]
  | ok s =>
    simp only [CoherenceScorer.score, clamp01]
    exact ⟨le_max_left 0 _, max_le (by norm_num) (min_le_left 1 _)⟩

/-- C7: the fallback pseudo-embedding is deterministic in the text, always
has the canonical dimension 1536, begins with the 32 SHA-256 digest bytes
of the UTF-8 encoded text read as numbers, and is zero beyond them. -/
theorem C7_fallback_embedding_deterministic (t₁ t₂ : String) (h : t₁ = t₂) :
    CoherenceScorer.textEmbeddingFallback t₁ = CoherenceScorer.textEmbeddingFallback t₂ ∧
    (CoherenceScorer.textEmbeddingFallback t₁).length = 1536 ∧
    (CoherenceScorer.textEmbeddingFallback t₁).take 32 =
      List.map (fun b : Nat => (b : ℚ)) (sha256Bytes (utf8Encode t₁)) ∧
    ∀ x ∈ (CoherenceScorer.textEmbeddingFallback t₁).drop 32, x = 0 := by
  subst h
  have harr : (List.map (fun b : Nat => (b : ℚ)) (sha256Bytes (utf8Encode t₁))).length = 32 := by
    rw [List.length_map, sha256Bytes_length]
  have hlt : (List.map (fun b : Nat => (b : ℚ)) (sha256Bytes (utf8Encode t₁))).length < 1536 := by
    omega
  refine ⟨rfl, ?_, ?_, ?_⟩
  · simp only [CoherenceScorer.textEmbeddingFallback, if_pos hlt]
    rw [List.length_append, List.length_replicate, harr]
  · simp only [CoherenceScorer.textEmbeddingFallback, if_pos hlt]
    rw [← harr, List.take_left]
  · simp only [CoherenceScorer.textEmbeddingFallback, if_pos hlt]
    intro x hx
    rw [← harr, List.drop_left] at hx
    exact (List.eq_of_mem_replicate hx)

/-- Witness for C7 at a concrete text. -/
theorem C7_witness :
    CoherenceScorer.textEmbeddingFallback "x" = CoherenceScorer.textEmbeddingFallback "x" ∧
    (CoherenceScorer.textEmbeddingFallback "x").length = 1536 ∧
    (CoherenceScorer.textEmbeddingFallback "x").take 32 =
      List.map (fun b : Nat => (b : ℚ)) (sha256Bytes (utf8Encode "x")) ∧
    ∀ x ∈ (CoherenceScorer.textEmbeddingFallback "x").drop 32, x = 0 :=
  C7_fallback_embedding_deterministic "x" "x" rfl

/-! ## C10: prompt synthesis in offline mode -/

/-- C10: the synthesized prompt list has one entry per copy, every entry
equals the single template instance, and the whole list depends only on the
product and audience fields of the brief and on the number of copies —
never on the copy texts or the other brief fields. -/
theorem C10_image_prompts_constant (b₁ b₂ : Brief) (cs₁ cs₂ : List String)
    (hprod : b₁.product = b₂.product) (haud : b₁.audience = b₂.audience)
    (hlen : cs₁.length = cs₂.length) :
    LLMClient.generate_image_prompts b₁ cs₁ = LLMClient.generate_image_prompts b₂ cs₂ ∧
    (LLMClient.generate_image_prompts b₁ cs₁).length = cs₁.length ∧
    ∀ p ∈ LLMClient.generate_image_prompts b₁ cs₁,
      p = promptTemplate b₁.product b₁.audience := by
  unfold LLMClient.generate_image_prompts
  refine ⟨?_, by rw [List.length_map], ?_⟩
  · rw [hprod, haud, List.map_const', List.map_const', hlen]
  · intro p hp
    rcases List.mem_map.mp hp with ⟨a, _, rfl⟩
    rfl

/-- Witness for C10 at two concrete briefs that differ in tone, goal,
platforms and counts, and two concrete copy lists of equal length. -/
theorem C10_witness :
    LLMClient.generate_image_prompts brief32 ["a", "b"] =
      LLMClient.generate_image_prompts briefAlt ["c", "d"] ∧
    (LLMClient.generate_image_prompts brief32 ["a", "b"]).length = (["a", "b"] : List String).length ∧
    ∀ p ∈ LLMClient.generate_image_prompts brief32 ["a", "b"],
      p = promptTemplate brief32.product brief32.audience :=
  C10_image_prompts_constant brief32 briefAlt ["a", "b"] ["c", "d"] rfl rfl rfl

/-! ## C1: the copy counts the pipeline actually produces -/

set_option maxRecDepth 100000 in
/-- C1 evaluation at the failing input: the brief requests three headlines
and two long copies, but the fallback branch of OrchestratorAgent.run calls
generate_copy_variations with only the brief, so the Python defaults 2 and
1 apply and the pipeline's copy set has size 3, not 5. -/
theorem C1_fallback_ignores_requested_counts :
    (LLMClient.generate_copy_variations brief32).1.length = 2 ∧
    (LLMClient.generate_copy_variations brief32).2.length = 1 ∧
    brief32.num_headlines = 3 ∧ brief32.num_long = 2 ∧
    (OrchestratorAgent.run env0 brief32 [] 0).copies.length = 3 :=
  ⟨by decide, by decide, rfl, rfl, by decide⟩

/-! ## C2: sizes of the cross product -/

/-- The image phase returns exactly one image per prompt occurrence,
whether it hits or misses the cache. -/
theorem OrchestratorAgent.genImages_length (env : PipelineEnv) :
    ∀ (ps : List String) (c : PromptCacheStore RenderedImage) (n : Nat),
      (OrchestratorAgent.genImages env ps c n).1.length = ps.length := by
  intro ps
  induction ps with
  | nil => intro c n; rfl
  | cons p t ih =>
    intro c n
    cases hg : PromptCache.get c p with
    | some img => simp [OrchestratorAgent.genImages, hg, ih]
    | none => simp [OrchestratorAgent.genImages, hg, ih]

/-- Scoring a cross product pairs every element of the first list with
every element of the second. -/
theorem length_flatMap_map_pairs {α β γ : Type} (xs : List α) (ys : List β) (f : α → β → γ) :
    (xs.flatMap (fun x => ys.map (f x))).length = xs.length * ys.length := by
  induction xs with
  | nil => simp
  | cons x t ih =>
    simp only [List.flatMap_cons, List.length_append, List.length_cons, List.length_map, ih]
    ring

/-- The ranking step keeps min 6 of the scored entries. -/
theorem OrchestratorAgent.rankAssets_length (rs : List ScoredAsset) :
    (OrchestratorAgent.rankAssets rs).length = min 6 rs.length := by
  simp [OrchestratorAgent.rankAssets, List.length_take, List.length_mergeSort]

set_option maxRecDepth 100000 in
/-- Counterexample to C2 as stated: at the scenario brief the copy set has
size 3, not 5 (the fallback ignores the requested counts), so the claimed
sizes fail on the code. -/
theorem C2_counterexample :
    ¬ ((OrchestratorAgent.run env0 brief32 [] 0).copies.length = 5 ∧
       (OrchestratorAgent.run env0 brief32 [] 0).results.length =
         5 * countDistinct (OrchestratorAgent.run env0 brief32 [] 0).prompts) := by
  intro h
  exact absurd h.1 (by decide)

/-- C2 amended: for the scenario brief, in offline fallback mode, the copy
set has size 3 = 2 + 1, the image list has one entry per synthesized
prompt occurrence (3, not deduplicated), the scoring stage produces one
ScoredAsset per (copy, image) pair of the cross product — 3 × 3 = 9
entries — and top-K truncates to min(6, 9) = 6, for every scorer, uuid
supply, incoming cache and name counter. -/
theorem C2_amended_cross_product (env : PipelineEnv) (c : PromptCacheStore RenderedImage)
    (n : Nat) :
    (OrchestratorAgent.run env brief32 c n).copies.length = 3 ∧
    (OrchestratorAgent.run env brief32 c n).images.length = 3 ∧
    (OrchestratorAgent.run env brief32 c n).results.length =
      (OrchestratorAgent.run env brief32 c n).copies.length *
        (OrchestratorAgent.run env brief32 c n).images.length ∧
    (OrchestratorAgent.run env brief32 c n).results.length = 9 ∧
    (OrchestratorAgent.run env brief32 c n).top.length = 6 := by
  have hcop : (OrchestratorAgent.run env brief32 c n).copies.length = 3 := by
    simp [OrchestratorAgent.run, LLMClient.generate_copy_variations]
  have himg : (OrchestratorAgent.run env brief32 c n).images.length = 3 := by
    show (OrchestratorAgent.genImages env _ c n).1.length = 3
    rw [OrchestratorAgent.genImages_length]
    simp [LLMClient.generate_image_prompts, LLMClient.generate_copy_variations]
  have hres : (OrchestratorAgent.run env brief32 c n).results.length =
      (OrchestratorAgent.run env brief32 c n).copies.length *
        (OrchestratorAgent.run env brief32 c n).images.length := by
    exact length_flatMap_map_pairs _ _ _
  refine ⟨hcop, himg, hres, ?_, ?_⟩
  · rw [hres, hcop, himg]
  · have htop : (OrchestratorAgent.run env brief32 c n).top =
        OrchestratorAgent.rankAssets (OrchestratorAgent.run env brief32 c n).results := rfl
    have h9 : (OrchestratorAgent.run env brief32 c n).results.length = 9 := by
      rw [hres, hcop, himg]
    rw [htop, OrchestratorAgent.rankAssets_length, h9]
    rfl

/-! ## C3: renders per prompt in a concurrent batch -/

/-- Once the prompt is cached, further tasks for it change nothing. -/
theorem runBatchAtomic_all_hit (env : PipelineEnv) (p : String) :
    ∀ (m : Nat) (st : BatchState), (PromptCache.get st.cache p).isSome = true →
      runBatchAtomic env (List.replicate m p) st = st := by
  intro m
  induction m with
  | zero => intro st h; rfl
  | succ k ih =>
    intro st h
    obtain ⟨v, hv⟩ := Option.isSome_iff_exists.mp h
    have hstep : renderTaskAtomic env p st = st := by
      simp [renderTaskAtomic, hv]
    simp only [runBatchAtomic, List.replicate_succ, List.foldl_cons, hstep] at ih ⊢
    exact ih st h

/-- C3: gen_prompt renders through the shared cache and generate_image has
no suspension point, so the N gathered tasks for one prompt text run
check-render-store to completion in submission order.  From a batch state
in which the prompt is not yet cached, exactly one backend render call and
exactly one cache write happen, however many concurrent requests N ≥ 1 the
batch contains; and from a state in which the prompt is already cached, no
render and no write happen at all — at most one render per distinct prompt
text. -/
theorem C3_same_prompt_single_render (env : PipelineEnv) (p : String) (N : Nat) (hN : 1 ≤ N)
    (st : BatchState) (hmiss : PromptCache.get st.cache p = none) :
    (runBatchAtomic env (List.replicate N p) st).renders = st.renders + 1 ∧
    (runBatchAtomic env (List.replicate N p) st).writes = st.writes + 1 ∧
    ∀ (st' : BatchState), (PromptCache.get st'.cache p).isSome = true →
      runBatchAtomic env (List.replicate N p) st' = st' := by
  obtain ⟨m, rfl⟩ : ∃ m, N = m + 1 := ⟨N - 1, by omega⟩
  have hstep : renderTaskAtomic env p st = renderCompletion env st p := by
    simp [renderTaskAtomic, hmiss]
  have hrun : runBatchAtomic env (List.replicate (m + 1) p) st = renderCompletion env st p := by
    simp only [runBatchAtomic, List.replicate_succ, List.foldl_cons, hstep]
    exact runBatchAtomic_all_hit env p m _ (by
      simp [renderCompletion, PromptCache.get_set_same])
  exact ⟨by rw [hrun]; rfl, by rw [hrun]; rfl,
    fun st' h => runBatchAtomic_all_hit env p (m + 1) st' h⟩

set_option maxRecDepth 1000000 in
/-- Witness for C3 at two concurrent requests for the concrete synthesized
prompt: exactly one render and one write on a cold cache, and none at all
on a cache already holding the prompt. -/
theorem C3_witness :
    (runBatchAtomic env0 (List.replicate 2 (promptTemplate "Aqua" "teens"))
      { cache := [], counter := 0, renders := 0, writes := 0 }).renders = 0 + 1 ∧
    (runBatchAtomic env0 (List.replicate 2 (promptTemplate "Aqua" "teens"))
      { cache := [], counter := 0, renders := 0, writes := 0 }).writes = 0 + 1 ∧
    runBatchAtomic env0 (List.replicate 2 (promptTemplate "Aqua" "teens"))
      { cache := cacheW, counter := 0, renders := 0, writes := 0 } =
      { cache := cacheW, counter := 0, renders := 0, writes := 0 } :=
  ⟨(C3_same_prompt_single_render env0 (promptTemplate "Aqua" "teens") 2 (by decide)
      { cache := [], counter := 0, renders := 0, writes := 0 } rfl).1,
   (C3_same_prompt_single_render env0 (promptTemplate "Aqua" "teens") 2 (by decide)
      { cache := [], counter := 0, renders := 0, writes := 0 } rfl).2.1,
   (C3_same_prompt_single_render env0 (promptTemplate "Aqua" "teens") 2 (by decide)
      { cache := [], counter := 0, renders := 0, writes := 0 } rfl).2.2
      { cache := cacheW, counter := 0, renders := 0, writes := 0 } (by decide)⟩

/-! ## C9: idempotence on a warm cache -/

/-- When every prompt of the batch is already cached, the image phase
reads only: the cache and the fresh-name counter come out unchanged. -/
theorem OrchestratorAgent.genImages_all_hit (env : PipelineEnv) :
    ∀ (ps : List String) (c : PromptCacheStore RenderedImage) (n : Nat),
      (∀ p ∈ ps, (PromptCache.get c p).isSome = true) →
      (OrchestratorAgent.genImages env ps c n).2.1 = c ∧
      (OrchestratorAgent.genImages env ps c n).2.2 = n := by
  intro ps
  induction ps with
  | nil => intro c n _; exact ⟨rfl, rfl⟩
  | cons p t ih =>
    intro c n h
    obtain ⟨v, hv⟩ := Option.isSome_iff_exists.mp (h p (List.mem_cons_self p t))
    have ht := ih c n (fun q hq => h q (List.mem_cons_of_mem p hq))
    simp [OrchestratorAgent.genImages, hv, ht.1, ht.2]

/-- C9: with an identical brief and a warm cache (every synthesized prompt
already cached) the run leaves the cache and the fresh-name counter
untouched, and a second run from the state the first run left behind is
equal to the first run in every component: same copies, same prompts, same
reused images, same scores, same ranking.  This holds for every scorer and
uuid supply because the run is a function of brief, cache and counter
alone. -/
theorem C9_warm_cache_idempotent (env : PipelineEnv) (brief : Brief)
    (c : PromptCacheStore RenderedImage) (n : Nat)
    (hwarm : ∀ p ∈ (OrchestratorAgent.run env brief c n).prompts,
      (PromptCache.get c p).isSome = true) :
    (OrchestratorAgent.run env brief c n).cacheOut = c ∧
    (OrchestratorAgent.run env brief c n).counterOut = n ∧
    OrchestratorAgent.run env brief (OrchestratorAgent.run env brief c n).cacheOut
        (OrchestratorAgent.run env brief c n).counterOut =
      OrchestratorAgent.run env brief c n := by
  have h := OrchestratorAgent.genImages_all_hit env
    ((OrchestratorAgent.run env brief c n).prompts) c n hwarm
  have h1 : (OrchestratorAgent.run env brief c n).cacheOut = c := h.1
  have h2 : (OrchestratorAgent.run env brief c n).counterOut = n := h.2
  exact ⟨h1, h2, by rw [h1, h2]⟩

set_option maxRecDepth 1000000 in
/-- Witness for C9 at the scenario brief and a concrete warm cache. -/
theorem C9_witness :
    (OrchestratorAgent.run env0 brief32 cacheW 0).cacheOut = cacheW ∧
    (OrchestratorAgent.run env0 brief32 cacheW 0).counterOut = 0 ∧
    OrchestratorAgent.run env0 brief32 (OrchestratorAgent.run env0 brief32 cacheW 0).cacheOut
        (OrchestratorAgent.run env0 brief32 cacheW 0).counterOut =
      OrchestratorAgent.run env0 brief32 cacheW 0 :=
  C9_warm_cache_idempotent env0 brief32 cacheW 0 (by decide)

/-! ## C8: the ranking is the top of the stable descending sort -/

/-- Transitivity of the score-only comparison. -/
theorem leSnd_trans (a b c : Nat × ScoredAsset) :
    leSnd a b = true → leSnd b c = true → leSnd a c = true := by
  simp only [leSnd, decide_eq_true_eq]
  exact fun h1 h2 => le_trans h2 h1

/-- Totality of the score-only comparison. -/
theorem leSnd_total (a b : Nat × ScoredAsset) : (leSnd a b || leSnd b a) = true := by
  simp only [leSnd, Bool.or_eq_true, decide_eq_true_eq]
  exact le_total b.2.score a.2.score

/-- Transitivity of the lexicographic comparison. -/
theorem leIdxDesc_trans (a b c : Nat × ScoredAsset) :
    leIdxDesc a b = true → leIdxDesc b c = true → leIdxDesc a c = true := by
  simp only [leIdxDesc, decide_eq_true_eq]
  rintro (h1 | ⟨he1, hi1⟩) (h2 | ⟨he2, hi2⟩)
  · exact Or.inl (lt_trans h2 h1)
  · exact Or.inl (he2 ▸ h1)
  · refine Or.inl ?_
    rw [← he1] at h2
    exact h2
  · exact Or.inr ⟨he1.trans he2, le_trans hi1 hi2⟩

/-- Totality of the lexicographic comparison. -/
theorem leIdxDesc_total (a b : Nat × ScoredAsset) :
    (leIdxDesc a b || leIdxDesc b a) = true := by
  simp only [leIdxDesc, Bool.or_eq_true, decide_eq_true_eq]
  rcases lt_trichotomy a.2.score b.2.score with h | h | h
  · exact Or.inr (Or.inl h)
  · rcases Nat.le_total a.1 b.1 with hi | hi
    · exact Or.inl (Or.inr ⟨h, hi⟩)
    · exact Or.inr (Or.inr ⟨h.symm, hi⟩)
  · exact Or.inl (Or.inl h)

/-- In a list whose tags strictly increase, a member with smaller tag
occurs before a member with larger tag: the two form a sublist in that
order. -/
theorem pairSublist_of_fstLt :
    ∀ {L : List (Nat × ScoredAsset)} {x y : Nat × ScoredAsset},
      List.Pairwise (fun u v => u.1 < v.1) L → x ∈ L → y ∈ L → x.1 < y.1 →
      [x, y].Sublist L := by
  intro L
  induction L with
  | nil => intro x y _ hx _ _; exact absurd hx (List.not_mem_nil x)
  | cons h t ih =>
    intro x y hpw hx hy hlt
    obtain ⟨hhead, htail⟩ := List.pairwise_cons.mp hpw
    rcases List.mem_cons.mp hx with hxh | hxt
    · rcases List.mem_cons.mp hy with hyh | hyt
      · subst hxh; subst hyh; exact absurd hlt (lt_irrefl _)
      · subst hxh
        exact List.Sublist.cons₂ x (List.singleton_sublist.mpr hyt)
    · rcases List.mem_cons.mp hy with hyh | hyt
      · subst hyh
        exact absurd (lt_trans hlt (hhead x hxt)) (lt_irrefl _)
      · exact List.Sublist.cons h (ih htail hxt hyt hlt)

/-- Two members of a duplicate-free list cannot occur both in one order and
in the other. -/
theorem sublist_antisymm_pair :
    ∀ {R : List (Nat × ScoredAsset)} {x y : Nat × ScoredAsset}, R.Nodup →
      [x, y].Sublist R → [y, x].Sublist R → x = y := by
  intro R
  induction R with
  | nil => intro x y _ hxy _; simp at hxy
  | cons h t ih =>
    intro x y hnd hxy hyx
    rw [List.nodup_cons] at hnd
    cases hxy with
    | cons _ hxy' =>
      cases hyx with
      | cons _ hyx' => exact ih hnd.2 hxy' hyx'
      | cons₂ _ hyx' =>
        exact absurd (hxy'.subset (by simp)) hnd.1
    | cons₂ _ hxy' =>
      cases hyx with
      | cons _ hyx' =>
        exact absurd (hyx'.subset (by simp)) hnd.1
      | cons₂ _ hyx' => rfl

/-- The tags of an enumerated list strictly increase. -/
theorem enum_pairwise_fst_lt (l : List ScoredAsset) :
    List.Pairwise (fun u v => u.1 < v.1) l.enum := by
  have h := List.pairwise_lt_range l.length
  rw [← List.enum_map_fst l] at h
  exact List.pairwise_map.mp h

/-- An enumerated list has no duplicates. -/
theorem enum_nodup (l : List ScoredAsset) : l.enum.Nodup := by
  apply List.Nodup.of_map Prod.fst
  rw [List.enum_map_fst]
  exact List.nodup_range l.length

/-- Members of an enumerated list with equal tags are equal. -/
theorem enum_fst_injOn (l : List ScoredAsset) :
    ∀ x ∈ l.enum, ∀ y ∈ l.enum, x.1 = y.1 → x = y := by
  have hnd : (l.enum.map Prod.fst).Nodup := by
    rw [List.enum_map_fst]
    exact List.nodup_range l.length
  intro x hx y hy hxy
  exact List.inj_on_of_nodup_map hnd hx hy hxy

/-- Two permutations of one tag-distinct list that are both sorted under
the lexicographic comparison are equal: the sorted order is unique. -/
theorem pairwiseLeIdx_perm_unique :
    ∀ (l₁ l₂ : List (Nat × ScoredAsset)), l₁.Perm l₂ →
      List.Pairwise (fun x y => leIdxDesc x y = true) l₁ →
      List.Pairwise (fun x y => leIdxDesc x y = true) l₂ →
      (∀ x ∈ l₁, ∀ y ∈ l₁, x.1 = y.1 → x = y) → l₁ = l₂ := by
  intro l₁
  induction l₁ with
  | nil =>
    intro l₂ hp _ _ _
    exact (hp.symm.eq_nil).symm
  | cons x t₁ ih =>
    intro l₂ hp hp₁ hp₂ hinj
    cases l₂ with
    | nil =>
      have := hp.eq_nil
      simp at this
    | cons y t₂ =>
      have hxy : x = y := by
        by_contra hne
        have hxl₂ : x ∈ y :: t₂ := hp.mem_iff.mp (List.mem_cons_self x t₁)
        have hx₂ : x ∈ t₂ := by
          rcases List.mem_cons.mp hxl₂ with h | h
          · exact absurd h hne
          · exact h
        have hyl₁ : y ∈ x :: t₁ := hp.mem_iff.mpr (List.mem_cons_self y t₂)
        have hy₁ : y ∈ t₁ := by
          rcases List.mem_cons.mp hyl₁ with h | h
          · exact absurd h.symm hne
          · exact h
        have h1 : leIdxDesc x y = true := (List.pairwise_cons.mp hp₁).1 y hy₁
        have h2 : leIdxDesc y x = true := (List.pairwise_cons.mp hp₂).1 x hx₂
        have hfst : x.1 = y.1 := by
          simp only [leIdxDesc, decide_eq_true_eq] at h1 h2
          rcases h1 with h1 | ⟨he1, hi1⟩ <;> rcases h2 with h2 | ⟨he2, hi2⟩
          · exact absurd (lt_trans h1 h2) (lt_irrefl _)
          · exact absurd (he2 ▸ h1) (lt_irrefl _)
          · exact absurd (he1 ▸ h2) (lt_irrefl _)
          · exact le_antisymm hi1 hi2
        exact hne (hinj x (List.mem_cons_self x t₁) y (List.mem_cons_of_mem x hy₁) hfst)
      subst hxy
      have htp : t₁.Perm t₂ := hp.cons_inv
      have heq := ih t₂ htp (List.pairwise_cons.mp hp₁).2 (List.pairwise_cons.mp hp₂).2
        (fun a ha b hb hab =>
          hinj a (List.mem_cons_of_mem x ha) b (List.mem_cons_of_mem x hb) hab)
      rw [heq]

/-- Stability of the code's sort, stated on the enumerated list: sorting by
score alone with the stable mergeSort yields a list that is even sorted
under the full lexicographic comparison, because among equal scores the
original tags stay in order. -/
theorem mergeSort_leSnd_pairwise_leIdx (l : List ScoredAsset) :
    List.Pairwise (fun x y => leIdxDesc x y = true) (l.enum.mergeSort leSnd) := by
  apply List.pairwise_iff_forall_sublist.mpr
  intro x y hsub
  have hsorted : List.Pairwise (fun a b => leSnd a b = true) (l.enum.mergeSort leSnd) :=
    List.sorted_mergeSort leSnd_trans leSnd_total l.enum
  have hxy : y.2.score ≤ x.2.score := by
    have := List.pairwise_iff_forall_sublist.mp hsorted hsub
    simpa only [leSnd, decide_eq_true_eq] using this
  rcases lt_or_eq_of_le hxy with hlt | heq
  · simp only [leIdxDesc, decide_eq_true_eq]
    exact Or.inl hlt
  · simp only [leIdxDesc, decide_eq_true_eq]
    refine Or.inr ⟨heq.symm, ?_⟩
    by_contra hgt
    push_neg at hgt
    have hperm := List.mergeSort_perm l.enum leSnd
    have hmx : x ∈ l.enum := hperm.mem_iff.mp (hsub.subset (by simp))
    have hmy : y ∈ l.enum := hperm.mem_iff.mp (hsub.subset (by simp))
    have hpair : [y, x].Sublist l.enum :=
      pairSublist_of_fstLt (enum_pairwise_fst_lt l) hmy hmx hgt
    have hpairle : List.Pairwise (fun a b => leSnd a b = true) [y, x] := by
      refine List.pairwise_cons.mpr ⟨?_, List.pairwise_singleton _ x⟩
      intro b hb
      rcases List.mem_singleton.mp hb with rfl
      simp only [leSnd, decide_eq_true_eq]
      exact le_of_eq heq.symm
    have hsub2 : [y, x].Sublist (l.enum.mergeSort leSnd) :=
      List.sublist_mergeSort leSnd_trans leSnd_total hpairle hpair
    have hnd : (l.enum.mergeSort leSnd).Nodup := hperm.symm.nodup (enum_nodup l)
    have hx_eq_y : x = y := sublist_antisymm_pair hnd hsub hsub2
    rw [hx_eq_y] at hgt
    exact lt_irrefl _ hgt

/-- The code's score-only stable sort of the enumerated list coincides with
the sort under the full lexicographic comparison. -/
theorem mergeSort_enum_eq (l : List ScoredAsset) :
    l.enum.mergeSort leSnd = l.enum.mergeSort leIdxDesc := by
  apply pairwiseLeIdx_perm_unique
  · exact (List.mergeSort_perm l.enum leSnd).trans (List.mergeSort_perm l.enum leIdxDesc).symm
  · exact mergeSort_leSnd_pairwise_leIdx l
  · exact List.sorted_mergeSort leIdxDesc_trans leIdxDesc_total l.enum
  · intro x hx y hy hxy
    exact enum_fst_injOn l x ((List.mergeSort_perm l.enum leSnd).mem_iff.mp hx)
      y ((List.mergeSort_perm l.enum leSnd).mem_iff.mp hy) hxy

/-- The ranking line of the code equals the top six of the spec's stable
descending sort. -/
theorem rankAssets_eq_specTop (rs : List ScoredAsset) :
    OrchestratorAgent.rankAssets rs = (specStableDescSort rs).take 6 := by
  have hmap : List.map Prod.snd (rs.enum.mergeSort leSnd) =
      (List.map Prod.snd rs.enum).mergeSort
        (fun a b : ScoredAsset => decide (b.score ≤ a.score)) :=
    List.map_mergeSort (fun a _ b _ => rfl)
  rw [List.enum_map_snd] at hmap
  unfold OrchestratorAgent.rankAssets specStableDescSort
  rw [← hmap, mergeSort_enum_eq]

/-- C8: for every list of scored entries the final ranking is the prefix of
length min(6, total) of the list sorted by score descending with ties
broken by original enumeration order (the stable sort), and this ranking is
exactly what the pipeline publishes as its result. -/
theorem C8_top_is_stable_desc_prefix (rs : List ScoredAsset) :
    OrchestratorAgent.rankAssets rs = (specStableDescSort rs).take 6 ∧
    OrchestratorAgent.rankAssets rs = (specStableDescSort rs).take (min 6 rs.length) ∧
    (OrchestratorAgent.rankAssets rs).length = min 6 rs.length ∧
    ∀ (env : PipelineEnv) (brief : Brief) (c : PromptCacheStore RenderedImage) (n : Nat),
      (OrchestratorAgent.run env brief c n).top =
        OrchestratorAgent.rankAssets (OrchestratorAgent.run env brief c n).results := by
  have hspec_len : (specStableDescSort rs).length = rs.length := by
    simp [specStableDescSort, List.length_map, List.length_mergeSort, List.enum_length]
  refine ⟨rankAssets_eq_specTop rs, ?_, OrchestratorAgent.rankAssets_length rs,
    fun env brief c n => rfl⟩
  rw [rankAssets_eq_specTop rs, ← hspec_len, ← List.take_take, List.take_length]
